import Mathlib

/-!
# Verification of the ChainOfProducts protection engine

Shallow embedding of `src/chainofproduct/crypto.py` and
`src/chainofproduct/library.py`.

Modelling conventions:
* Byte strings are modelled as Lean `String`s.
* The cryptographic primitives supplied by the `cryptography` package are
  modelled symbolically at the level of their documented contracts:
  - an AES-GCM ciphertext is a record carrying the key, the nonce and the
    plaintext; decryption succeeds exactly when the supplied key equals the
    encryption key (ideal AEAD authentication);
  - X25519 private keys are naturals, a public key is its scalar, and the
    Diffie-Hellman exchange of `a` with public key `b` is the unordered pair
    `(min a b, max a b)`, which is commutative and cancellative exactly as
    the contract of the real exchange demands;
  - Ed25519 signatures record the signing scalar and the message; a
    signature verifies against a public key and message iff both match;
  - HKDF and SHA-256 are free (injective) symbolic constructions.
* Randomness (`os.urandom`) is modelled by an explicit counter threaded
  through `protect`: each draw takes the current counter value and bumps it,
  in the order the Python code performs the draws.
* Python `print` calls are modelled as a list of stdout lines returned next
  to the result, so that what the function *returns* and what it merely
  *prints* stay distinguishable.
-/

namespace ChainOfProducts

/-- Byte strings of the Python code, modelled as Lean strings. -/
abbrev Bytes := String

/-- A base64-encoded value as stored in the JSON document.  The Python code
only ever round-trips `base64.b64encode`/`b64decode`, so the wrapper keeps
the underlying value and marks the encoding boundary. -/
structure B64 (α : Type) where
  data : α
deriving DecidableEq, Repr

/-- Symbolic 32-byte key values: fresh random keys from `os.urandom(32)`,
HKDF outputs over an X25519 shared secret (`wrap_key_x25519`), and HKDF
outputs over another key (`derive_group_key`). Constructor injectivity
models collision-freeness of the KDF. -/
inductive KeyVal where
  | fresh : Nat → KeyVal
  | hkdfDH : Nat × Nat → String → KeyVal
  | hkdfKey : KeyVal → String → KeyVal
deriving DecidableEq, Repr

/-- Payloads fed to AES-GCM: either transaction bytes or a key value being
wrapped. -/
inductive PlainData where
  | txt : Bytes → PlainData
  | key : KeyVal → PlainData
deriving DecidableEq, Repr

/-- A symbolic AES-256-GCM ciphertext: the dict
`{"ciphertext": ..., "nonce": ...}` returned by `encrypt_aes_gcm`. -/
structure AesGcmCiphertext where
  encKey : KeyVal
  nonce : Nat
  payload : PlainData
deriving DecidableEq, Repr

/-- `crypto.encrypt_aes_gcm(key, plaintext)`; the 12-byte random nonce is an
explicit argument here. -/
def encrypt_aes_gcm (key : KeyVal) (nonce : Nat) (plaintext : PlainData) :
    AesGcmCiphertext :=
  { encKey := key, nonce := nonce, payload := plaintext }

/-- `crypto.decrypt_aes_gcm(key, encrypted_data)`: ideal AEAD — decryption
returns the payload iff the key matches, `none` models the `CryptoError`
raised on tag-authentication failure. -/
def decrypt_aes_gcm (key : KeyVal) (c : AesGcmCiphertext) : Option PlainData :=
  if c.encKey = key then some c.payload else none

/-- X25519 private scalars. -/
abbrev PrivKey := Nat

/-- X25519 public keys (the canonical 32-byte encoding, symbolically the
scalar itself so that the scalar-to-point map is injective). -/
abbrev PubKey := Nat

/-- The public key of an X25519 private scalar. -/
def x25519PublicKey (r : PrivKey) : PubKey := r

/-- The X25519 exchange `priv.exchange(pub)`.  Modelled as the unordered
pair of the two scalars: commutative (`a·B = b·A`) and cancellative in each
argument, which is what the wrap/unwrap contract relies on. -/
def x25519Exchange (priv : PrivKey) (pub : PubKey) : Nat × Nat :=
  (min priv pub, max priv pub)

/-- Ed25519 private scalars. -/
abbrev SignPriv := Nat

/-- Ed25519 public keys (symbolically the scalar, injectively). -/
abbrev SignPub := Nat

/-- The public key of an Ed25519 signing scalar. -/
def ed25519PublicKey (s : SignPriv) : SignPub := s

/-- A symbolic Ed25519 signature: records who signed which message. -/
structure Sig where
  signer : SignPriv
  msg : Bytes
deriving DecidableEq, Repr

/-- `crypto.sign_data` (Ed25519 is deterministic). -/
def sign_data (privateKey : SignPriv) (data : Bytes) : Sig :=
  { signer := privateKey, msg := data }

/-- `crypto.verify_signature`: true iff the signature was produced by the
private scalar of `publicKey` over exactly `data`. -/
def verify_signature (publicKey : SignPub) (signature : Sig) (data : Bytes) :
    Bool :=
  signature.signer == publicKey && signature.msg == data

/-- `crypto.hash_data`: SHA-256, modelled as an injective symbolic tag. -/
def hash_data (data : Bytes) : Bytes := "sha256:" ++ data

/-- The HKDF info string used by `wrap_key_x25519` / `unwrap_key_x25519`. -/
def keyWrappingInfo : String := "key_wrapping"

/-- A wrapped-key envelope, the dict returned by `crypto.wrap_key_x25519`. -/
structure WrappedKey where
  ephemeral_public_key : PubKey
  encrypted_key : AesGcmCiphertext
deriving DecidableEq, Repr

/-- `crypto.wrap_key_x25519(recipient_public_key, key_to_wrap)`.  The
ephemeral scalar `e` and the AEAD nonce `n` are the random draws, passed
explicitly. -/
def wrap_key_x25519 (recipientPublicKey : PubKey) (keyToWrap : KeyVal)
    (e : PrivKey) (n : Nat) : WrappedKey :=
  let sharedSecret := x25519Exchange e recipientPublicKey
  let wrappingKey := KeyVal.hkdfDH sharedSecret keyWrappingInfo
  { ephemeral_public_key := x25519PublicKey e,
    encrypted_key := encrypt_aes_gcm wrappingKey n (.key keyToWrap) }

/-- `crypto.unwrap_key_x25519(recipient_private_key, wrapped_data)`.
`none` models the `CryptoError` (DecryptAuth) raised on tag failure. -/
def unwrap_key_x25519 (recipientPrivateKey : PrivKey) (w : WrappedKey) :
    Option KeyVal :=
  let sharedSecret := x25519Exchange recipientPrivateKey w.ephemeral_public_key
  let wrappingKey := KeyVal.hkdfDH sharedSecret keyWrappingInfo
  match decrypt_aes_gcm wrappingKey w.encrypted_key with
  | some (.key k) => some k
  | _ => none

/-- `crypto.derive_group_key(transaction_key, group_id, tx_id)`. -/
def derive_group_key (transactionKey : KeyVal) (groupId : String)
    (txId : String) : KeyVal :=
  KeyVal.hkdfKey transactionKey ("group:" ++ groupId ++ ":tx:" ++ txId)

/-! ## JSON values and Python `json.dumps(..., sort_keys=True)` -/

mutual

/-- JSON values; a Python transaction dict is an `obj`.  (Arrays and
objects carry their own list types so that all recursion over JSON stays
structural and kernel-reducible.) -/
inductive JsonVal where
  | null : JsonVal
  | bool : Bool → JsonVal
  | num : Int → JsonVal
  | str : String → JsonVal
  | arr : JsonList → JsonVal
  | obj : JsonFields → JsonVal

/-- A JSON array's elements. -/
inductive JsonList where
  | nil : JsonList
  | cons : JsonVal → JsonList → JsonList

/-- A JSON object's fields, in Python-dict insertion order. -/
inductive JsonFields where
  | nil : JsonFields
  | cons : String → JsonVal → JsonFields → JsonFields

end

/-- Python `value == some_str` where `some_str` is a `str`: true exactly
when the JSON value is a string with the same contents. -/
def JsonVal.eqStr : JsonVal → String → Bool
  | .str s, t => s == t
  | _, _ => false

/-- Python-dict lookup `d[k]` / `k in d` on a JSON object. -/
def JsonFields.get (k : String) : JsonFields → Option JsonVal
  | .nil => none
  | .cons k' v tl => if k' = k then some v else JsonFields.get k tl

/-- Build a JSON object from a list of fields. -/
def JsonFields.ofList : List (String × JsonVal) → JsonFields
  | [] => .nil
  | (k, v) :: rest => .cons k v (JsonFields.ofList rest)

/-- Python-dict lookup on an association list (keys are unique in a dict;
the first match is returned). -/
def dictGet {α : Type} (k : String) : List (String × α) → Option α
  | [] => none
  | (k', v) :: rest => if k' = k then some v else dictGet k rest

/-- Python-dict insertion: `d[k] = v` replaces in place if the key exists,
otherwise appends (dicts preserve insertion order). -/
def dictInsert {α : Type} (k : String) (v : α) :
    List (String × α) → List (String × α)
  | [] => [(k, v)]
  | (k', v') :: rest =>
    if k' = k then (k, v) :: rest else (k', v') :: dictInsert k v rest

/-- Lexicographic comparison of character lists by code point, the order
Python uses to compare `str` keys. -/
def charListLt : List Char → List Char → Bool
  | [], [] => false
  | [], _ :: _ => true
  | _ :: _, [] => false
  | a :: as, b :: bs =>
    if a < b then true else if b < a then false else charListLt as bs

/-- Python `str` comparison `a < b` (lexicographic by code point). -/
def keyLt (a b : String) : Bool := charListLt a.data b.data

/-- Insert a rendered key/value pair into a list sorted by key
(lexicographic string order, as Python `sorted` of `dict` keys). -/
def insertPairByKey (p : String × String) :
    List (String × String) → List (String × String)
  | [] => [p]
  | q :: qs =>
    if keyLt p.1 q.1 then p :: q :: qs else q :: insertPairByKey p qs

/-- Insertion sort of rendered pairs by key. -/
def sortPairsByKey : List (String × String) → List (String × String)
  | [] => []
  | p :: ps => insertPairByKey p (sortPairsByKey ps)

/-- Render one `"key": value` item with Python default separators
(`": "` between key and value). -/
def renderPair (p : String × String) : String :=
  "\"" ++ p.1 ++ "\": " ++ p.2

/-- Join with the Python default item separator `", "`. -/
def joinComma (items : List String) : String :=
  String.intercalate ", " items

mutual

/-- `json.dumps(v, sort_keys=True)` with the default separators
`(", ", ": ")` — note the spaces: this is what
`library.protect` line 64 produces and hashes.  String escaping is the
identity (all strings in play contain no characters needing escapes). -/
def jsonDumps : JsonVal → String
  | .null => "null"
  | .bool b => if b then "true" else "false"
  | .num n => toString n
  | .str s => "\"" ++ s ++ "\""
  | .arr xs => "[" ++ joinComma (jsonDumpsList xs) ++ "]"
  | .obj fs =>
    "\x7b" ++ joinComma ((sortPairsByKey (jsonDumpsFields fs)).map renderPair)
      ++ "\x7d"

/-- Serialize array elements in order. -/
def jsonDumpsList : JsonList → List String
  | .nil => []
  | .cons x xs => jsonDumps x :: jsonDumpsList xs

/-- Render each object field's value, keeping the key for sorting. -/
def jsonDumpsFields : JsonFields → List (String × String)
  | .nil => []
  | .cons k v fs => (k, jsonDumps v) :: jsonDumpsFields fs

end

/-- Render one `"key":value` item with no space, per the spec's words. -/
def renderPairCompact (p : String × String) : String :=
  "\"" ++ p.1 ++ "\":" ++ p.2

mutual

/-- Canonical JSON as the SPEC describes it (for the refinement claim C4):
"keys sorted lexicographically, UTF-8, no insignificant whitespace", i.e.
separators `(",", ":")` with no spaces.  This definition follows the spec's
words and is to be compared with `jsonDumps`, which follows the source. -/
def specCanonicalDumps : JsonVal → String
  | .null => "null"
  | .bool b => if b then "true" else "false"
  | .num n => toString n
  | .str s => "\"" ++ s ++ "\""
  | .arr xs => "[" ++ String.intercalate "," (specCanonicalDumpsList xs) ++ "]"
  | .obj fs =>
    "\x7b" ++ String.intercalate ","
        ((sortPairsByKey (specCanonicalDumpsFields fs)).map renderPairCompact)
      ++ "\x7d"

/-- Spec-style serialization of array elements. -/
def specCanonicalDumpsList : JsonList → List String
  | .nil => []
  | .cons x xs => specCanonicalDumps x :: specCanonicalDumpsList xs

/-- Spec-style rendering of object fields. -/
def specCanonicalDumpsFields : JsonFields → List (String × String)
  | .nil => []
  | .cons k v fs => (k, specCanonicalDumps v) :: specCanonicalDumpsFields fs

end

/-- Python `str(...)` for the JSON values that can appear as a transaction
`id` (used by `protect` for the group-key context string `str(tx["id"])`). -/
def pyStr : JsonVal → String
  | .null => "None"
  | .bool b => if b then "True" else "False"
  | .num n => toString n
  | .str s => s
  | v => jsonDumps v

/-! ## Key directories (`keymanager.py`) -/

/-- The public-key record a `PublicKeyStore` holds per company. -/
structure Company where
  signing_public_key : SignPub
  encryption_public_key : PubKey
deriving DecidableEq, Repr

/-- `keymanager.PublicKeyStore`: company name to advertised public keys. -/
structure PublicKeyStore where
  keys : List (String × Company)
deriving DecidableEq, Repr

/-- `PublicKeyStore.get_signing_public_key`; `none` models the `KeyError`. -/
def PublicKeyStore.get_signing_public_key (s : PublicKeyStore)
    (name : String) : Option SignPub :=
  (dictGet name s.keys).map Company.signing_public_key

/-- `PublicKeyStore.get_encryption_public_key`; `none` models `KeyError`. -/
def PublicKeyStore.get_encryption_public_key (s : PublicKeyStore)
    (name : String) : Option PubKey :=
  (dictGet name s.keys).map Company.encryption_public_key

/-- `keymanager.KeyManager`: the local vault of private keys.  `none` on
lookup models the `FileNotFoundError` the loaders raise. -/
structure KeyManager where
  signing : List (String × SignPriv)
  encryption : List (String × PrivKey)
deriving DecidableEq, Repr

/-- `KeyManager.load_signing_private_key`. -/
def KeyManager.load_signing_private_key (km : KeyManager) (name : String) :
    Option SignPriv :=
  dictGet name km.signing

/-- `KeyManager.load_encryption_private_key`. -/
def KeyManager.load_encryption_private_key (km : KeyManager) (name : String) :
    Option PrivKey :=
  dictGet name km.encryption

/-! ## The protected document (`library.py`) -/

/-- One entry of `signatures`: `{"company": ..., "signature": <b64>}`. -/
structure SigEntry where
  company : String
  signature : B64 Sig
deriving DecidableEq, Repr

/-- The `signatures` sub-dict; `buyer` is `None` until `buyer_sign`. -/
structure Signatures where
  seller : Option SigEntry
  buyer : Option SigEntry
deriving DecidableEq, Repr

/-- One entry of `group_wrapped_keys`: `{"members": {...}}`. -/
structure GroupEntry where
  members : List (String × WrappedKey)
deriving DecidableEq, Repr

/-- The protected document assembled by `protect` (lines 127–147). -/
structure ProtectedDoc where
  version : String
  transaction_id : JsonVal
  encrypted_transaction : AesGcmCiphertext
  signatures : Signatures
  wrapped_keys : List (String × WrappedKey)
  group_wrapped_keys : List (String × GroupEntry)
  transaction_hash : B64 Bytes

/-- Errors raised by `protect` (all are `ProtectionError` /
`FileNotFoundError` / `KeyError` raises in the Python code, distinguished
here by raise site). -/
inductive ProtectErr where
  | missingField : String → ProtectErr
  | sellerMismatch : ProtectErr
  | buyerMismatch : ProtectErr
  | missingSigningKey : String → ProtectErr
  | missingPublicKey : String → ProtectErr
deriving DecidableEq, Repr

/-- The required plaintext fields, in the order `protect` checks them. -/
def requiredFields : List String :=
  ["id", "timestamp", "seller", "buyer", "product", "units", "amount"]

/-- The first required field absent from the transaction dict, if any
(the validation loop of `protect`, lines 47–50). -/
def findMissingField (tx : JsonFields) :
    List String → Option String
  | [] => none
  | f :: fs => if (tx.get f).isSome then findMissingField tx fs else some f

/-- The stdout warning printed for an unresolvable optional recipient. -/
def recipientWarning (recipient : String) : String :=
  "Warning: Public key not found for recipient " ++ recipient ++ ", skipping"

/-- The stdout warning printed when a group's members cannot be fetched. -/
def groupFetchWarning (groupId : String) : String :=
  "Warning: Could not fetch members for group " ++ groupId ++ ", skipping"

/-- The stdout warning printed for a group member with no public key. -/
def memberWarning (member : String) (groupId : String) : String :=
  "Warning: Public key not found for member " ++ member ++ " of group "
    ++ groupId

/-- The optional-recipient loop of `protect` (lines 83–89): wrap `K_T` for
each resolvable recipient, printing a warning and skipping otherwise.
Returns the advanced random counter, the updated wrapped-keys dict and the
stdout lines. -/
def wrapRecipients (store : PublicKeyStore) (kT : KeyVal) :
    Nat → List (String × WrappedKey) → List String →
    Nat × List (String × WrappedKey) × List String
  | c, acc, [] => (c, acc, [])
  | c, acc, r :: rest =>
    match store.get_encryption_public_key r with
    | some p =>
      wrapRecipients store kT (c + 2)
        (dictInsert r (wrap_key_x25519 p kT c (c + 1)) acc) rest
    | none =>
      let rest' := wrapRecipients store kT c acc rest
      (rest'.1, rest'.2.1, recipientWarning r :: rest'.2.2)

/-- The member loop of `protect` (lines 114–121): wrap the group key for
each member whose public key resolves. -/
def wrapGroupMembers (store : PublicKeyStore) (groupKey : KeyVal)
    (groupId : String) :
    Nat → List (String × WrappedKey) → List String →
    Nat × List (String × WrappedKey) × List String
  | c, acc, [] => (c, acc, [])
  | c, acc, m :: rest =>
    match store.get_encryption_public_key m with
    | some p =>
      wrapGroupMembers store groupKey groupId (c + 2)
        (dictInsert m (wrap_key_x25519 p groupKey c (c + 1)) acc) rest
    | none =>
      let rest' := wrapGroupMembers store groupKey groupId c acc rest
      (rest'.1, rest'.2.1, memberWarning m groupId :: rest'.2.2)

/-- The group loop of `protect` (lines 94–124).  `groupServer gid` is the
result of `GET /groups/gid/members`: `none` for a non-200 response (warning
and skip), `some members` otherwise. -/
def wrapGroups (store : PublicKeyStore)
    (groupServer : String → Option (List String)) (kT : KeyVal)
    (txId : String) :
    Nat → List (String × GroupEntry) → List String →
    Nat × List (String × GroupEntry) × List String
  | c, acc, [] => (c, acc, [])
  | c, acc, gid :: rest =>
    match groupServer gid with
    | none =>
      let rest' := wrapGroups store groupServer kT txId c acc rest
      (rest'.1, rest'.2.1, groupFetchWarning gid :: rest'.2.2)
    | some members =>
      let groupKey := derive_group_key kT gid txId
      let mres := wrapGroupMembers store groupKey gid c [] members
      let rest' :=
        wrapGroups store groupServer kT txId mres.1
          (dictInsert gid { members := mres.2.1 } acc) rest
      (rest'.1, rest'.2.1, mres.2.2 ++ rest'.2.2)

/-- `library.protect` (lines 20–149).

The random counter `c0` stands for the RNG: draws happen in source order —
`K_T` at `c0`, the transaction nonce at `c0 + 1`, then an ephemeral scalar
and a nonce per wrap (seller, buyer, recipients in order, group members in
order).  The second component of the result is the list of lines `protect`
prints to stdout (its warnings). -/
def protect (tx : JsonFields) (seller buyer : String)
    (km : KeyManager) (store : PublicKeyStore) (recipients : List String)
    (groups : List String) (groupServer : String → Option (List String))
    (c0 : Nat) : Except ProtectErr ProtectedDoc × List String :=
  match findMissingField tx requiredFields with
  | some f => (.error (.missingField f), [])
  | none =>
    if !(((tx.get "seller").getD .null).eqStr seller) then
      (.error .sellerMismatch, [])
    else if !(((tx.get "buyer").getD .null).eqStr buyer) then
      (.error .buyerMismatch, [])
    else
      let kT := KeyVal.fresh c0
      let plaintext := jsonDumps (.obj tx)
      let encryptedTx := encrypt_aes_gcm kT (c0 + 1) (.txt plaintext)
      let txHash := hash_data plaintext
      match km.load_signing_private_key seller with
      | none => (.error (.missingSigningKey seller), [])
      | some sellerSignKey =>
        let sellerSignature := sign_data sellerSignKey txHash
        match store.get_encryption_public_key seller with
        | none => (.error (.missingPublicKey seller), [])
        | some sellerEncPub =>
          let wkSeller := wrap_key_x25519 sellerEncPub kT (c0 + 2) (c0 + 3)
          match store.get_encryption_public_key buyer with
          | none => (.error (.missingPublicKey buyer), [])
          | some buyerEncPub =>
            let wkBuyer := wrap_key_x25519 buyerEncPub kT (c0 + 4) (c0 + 5)
            let w0 := dictInsert buyer wkBuyer [(seller, wkSeller)]
            let rres := wrapRecipients store kT (c0 + 6) w0 recipients
            let wrapped := rres.2.1
            let txIdVal := (tx.get "id").getD .null
            let gres :=
              wrapGroups store groupServer kT (pyStr txIdVal) rres.1 [] groups
            let gwk := gres.2.1
            (.ok
              { version := "1.0"
                transaction_id := txIdVal
                encrypted_transaction := encryptedTx
                signatures :=
                  { seller := some { company := seller,
                                     signature := ⟨sellerSignature⟩ },
                    buyer := none }
                wrapped_keys := wrapped
                group_wrapped_keys := gwk
                transaction_hash := ⟨txHash⟩ },
              rres.2.2 ++ gres.2.2)

/-! ## `buyer_sign` (library.py lines 152–182) -/

/-- `library.buyer_sign`: sign `transaction_hash` with the buyer's signing
key and write the `signatures.buyer` slot (overwriting whatever was there).
`.error` models the `FileNotFoundError` when the vault has no key. -/
def buyer_sign (doc : ProtectedDoc) (buyer : String) (km : KeyManager) :
    Except String ProtectedDoc :=
  match km.load_signing_private_key buyer with
  | none => .error ("Signing private key not found for " ++ buyer)
  | some buyerSignKey =>
    let txHash := doc.transaction_hash.data
    .ok { doc with
          signatures :=
            { doc.signatures with
              buyer := some { company := buyer,
                              signature := ⟨sign_data buyerSignKey txHash⟩ } } }

/-! ## `check` (library.py lines 185–266) -/

/-- The outcome of one signature branch of `check`: its contribution to
`valid`, `errors`, `warnings`, `details`. -/
structure SigCheck where
  ok : Bool
  errs : List String
  warns : List String
  detail : Option String
deriving DecidableEq, Repr

/-- The seller branch of `check` (lines 211–229).  When the seller entry is
`None` the detail key is never written. -/
def checkSellerSig (store : PublicKeyStore) (txHash : Bytes) :
    Option SigEntry → SigCheck
  | some sd =>
    match store.get_signing_public_key sd.company with
    | some pk =>
      if verify_signature pk sd.signature.data txHash then
        { ok := true, errs := [], warns := [], detail := some "valid" }
      else
        { ok := false, errs := ["Seller signature verification failed"],
          warns := [], detail := some "invalid" }
    | none =>
      { ok := true, errs := [],
        warns := ["Cannot verify seller signature: public key not found for "
                    ++ sd.company],
        detail := some "cannot_verify" }
  | none =>
    { ok := false, errs := ["Seller signature missing"], warns := [],
      detail := none }

/-- The buyer branch of `check` (lines 232–250): absence is a warning with
detail `"missing"`, not invalidity. -/
def checkBuyerSig (store : PublicKeyStore) (txHash : Bytes) :
    Option SigEntry → SigCheck
  | some bd =>
    match store.get_signing_public_key bd.company with
    | some pk =>
      if verify_signature pk bd.signature.data txHash then
        { ok := true, errs := [], warns := [], detail := some "valid" }
      else
        { ok := false, errs := ["Buyer signature verification failed"],
          warns := [], detail := some "invalid" }
    | none =>
      { ok := true, errs := [],
        warns := ["Cannot verify buyer signature: public key not found for "
                    ++ bd.company],
        detail := some "cannot_verify" }
  | none =>
    { ok := true, errs := [], warns := ["Buyer signature not yet added"],
      detail := some "missing" }

/-- The verification report `check` returns (the `details` sub-dict is
flattened into optional fields; a `none` detail was never written). -/
structure CheckResult where
  valid : Bool
  errors : List String
  warnings : List String
  details_seller_signature : Option String
  details_buyer_signature : Option String
  details_individual_recipients : Option Nat
  details_groups : Option Nat
deriving DecidableEq, Repr

/-- `library.check`.  Total by construction: every exception path of the
Python code is inside its `try`/`except` and the typed document cannot
trigger the structural ones (`transaction_hash` is always present and the
`encrypted_transaction` record always has both `ciphertext` and `nonce`, so
the shape error of lines 257–260 cannot fire). -/
def check (doc : ProtectedDoc) (store : PublicKeyStore) : CheckResult :=
  let versionWarns :=
    if doc.version = "1.0" then []
    else ["Unknown version: " ++ doc.version]
  let txHash := doc.transaction_hash.data
  let s := checkSellerSig store txHash doc.signatures.seller
  let b := checkBuyerSig store txHash doc.signatures.buyer
  { valid := s.ok && b.ok
    errors := s.errs ++ b.errs
    warnings := versionWarns ++ s.warns ++ b.warns
    details_seller_signature := s.detail
    details_buyer_signature := b.detail
    details_individual_recipients := some doc.wrapped_keys.length
    details_groups := some doc.group_wrapped_keys.length }

/-! ## `unprotect` (library.py lines 269–341) -/

/-- Failures of `unprotect`, by raise site:
`noAccess` is the final `ProtectionError` "No access granted",
`groupNotImplemented` the `ProtectionError` of lines 321–325,
`decryptAuth` a propagated `CryptoError` from AEAD tag failure,
`missingEncKey` a propagated `FileNotFoundError` from the vault,
`invalidPlaintext` a decrypted payload that is not transaction text
(`json.loads` failure, unreachable for honestly produced documents). -/
inductive UnprotectErr where
  | noAccess : String → UnprotectErr
  | groupNotImplemented : String → UnprotectErr
  | decryptAuth : UnprotectErr
  | missingEncKey : String → UnprotectErr
  | invalidPlaintext : UnprotectErr
deriving DecidableEq, Repr

/-- The value `unprotect` returns: the decrypted transaction bytes (the
Python code parses them with `json.loads` before returning), the access
method, and the hard-coded `"verified": True`. -/
structure UnprotectResult where
  transaction : Bytes
  access_method : String
  verified : Bool
deriving DecidableEq, Repr

/-- The group scan of `unprotect` (lines 297–325): the first group whose
`members` dict contains the company, with that member's envelope. -/
def findGroup (company : String) :
    List (String × GroupEntry) → Option (String × WrappedKey)
  | [] => none
  | (gid, ge) :: rest =>
    match dictGet company ge.members with
    | some w => some (gid, w)
    | none => findGroup company rest

/-- `library.unprotect`.  The individual path wins when the company has an
entry in `wrapped_keys`; otherwise the group scan runs and — as the source
stands — ends in the "Group-based decryption not fully implemented"
`ProtectionError` after successfully unwrapping the group key. -/
def unprotect (doc : ProtectedDoc) (company : String) (km : KeyManager) :
    Except UnprotectErr UnprotectResult :=
  match dictGet company doc.wrapped_keys with
  | some w =>
    match km.load_encryption_private_key company with
    | none => .error (.missingEncKey company)
    | some r =>
      match unwrap_key_x25519 r w with
      | none => .error .decryptAuth
      | some kT =>
        match decrypt_aes_gcm kT doc.encrypted_transaction with
        | none => .error .decryptAuth
        | some (.txt s) =>
          .ok { transaction := s, access_method := "individual",
                verified := true }
        | some (.key _) => .error .invalidPlaintext
  | none =>
    match findGroup company doc.group_wrapped_keys with
    | some (gid, w) =>
      match km.load_encryption_private_key company with
      | none => .error (.missingEncKey company)
      | some r =>
        match unwrap_key_x25519 r w with
        | none => .error .decryptAuth
        | some _ => .error (.groupNotImplemented gid)
    | none => .error (.noAccess company)

/-! ## A concrete scenario (spec §8, S1–S3 shape)

Companies `"S"` (seller), `"B"` (buyer), `"M"` (a member of group `"g"`
only).  Symbolic key scalars: signing/encryption 1/2 for `S`, 3/4 for `B`,
5/6 for `M`; public keys are the same scalars under the identity
scalar-to-point map. -/

/-- Public-key directory for the scenario. -/
def scenStore : PublicKeyStore :=
  { keys := [("S", { signing_public_key := 1, encryption_public_key := 2 }),
             ("B", { signing_public_key := 3, encryption_public_key := 4 }),
             ("M", { signing_public_key := 5, encryption_public_key := 6 })] }

/-- The seller's vault. -/
def scenKmS : KeyManager :=
  { signing := [("S", 1)], encryption := [("S", 2)] }

/-- The buyer's vault. -/
def scenKmB : KeyManager :=
  { signing := [("B", 3)], encryption := [("B", 4)] }

/-- The group member's vault. -/
def scenKmM : KeyManager :=
  { signing := [("M", 5)], encryption := [("M", 6)] }

/-- The group server: one group `"g"` with single member `"M"`. -/
def scenServer : String → Option (List String) :=
  fun gid => if gid = "g" then some ["M"] else none

/-- The S1 plaintext of spec §8, with short company names. -/
def scenTx : JsonFields :=
  JsonFields.ofList
    [("id", .num 123), ("timestamp", .num 1766336340),
     ("seller", .str "S"), ("buyer", .str "B"),
     ("product", .str "Indium"), ("units", .num 40000),
     ("amount", .num 90000000)]

/-- The scenario transaction with the required field `"amount"` missing. -/
def scenTxNoAmount : JsonFields :=
  JsonFields.ofList
    [("id", .num 123), ("timestamp", .num 1766336340),
     ("seller", .str "S"), ("buyer", .str "B"),
     ("product", .str "Indium"), ("units", .num 40000)]

/-- `protect` of the scenario transaction, shared with group `"g"`. -/
def scenProtect : Except ProtectErr ProtectedDoc × List String :=
  protect scenTx "S" "B" scenKmS scenStore [] ["g"] scenServer 100

/-- A placeholder document (never reached: `scenProtect` succeeds). -/
def emptyDoc : ProtectedDoc :=
  { version := "", transaction_id := .null,
    encrypted_transaction := ⟨.fresh 0, 0, .txt ""⟩,
    signatures := { seller := none, buyer := none },
    wrapped_keys := [], group_wrapped_keys := [],
    transaction_hash := ⟨""⟩ }

/-- The protected document of the scenario. -/
def scenDoc : ProtectedDoc :=
  match scenProtect.1 with
  | .ok d => d
  | .error _ => emptyDoc

/-! ## Lemmas about the helpers -/

theorem dictGet_mem {α : Type} {k : String} {v : α}
    {l : List (String × α)} (h : dictGet k l = some v) : (k, v) ∈ l := by
  induction l with
  | nil => simp [dictGet] at h
  | cons q rest ih =>
    obtain ⟨k', v'⟩ := q
    simp only [dictGet] at h
    split at h
    next hk =>
      injection h with hv
      subst hv; subst hk
      exact List.mem_cons_self _ _
    next hk =>
      exact List.mem_cons_of_mem _ (ih h)

theorem mem_dictInsert {α : Type} {p : String × α} {k : String} {v : α}
    {l : List (String × α)} (h : p ∈ dictInsert k v l) :
    p = (k, v) ∨ p ∈ l := by
  induction l with
  | nil => simpa [dictInsert] using h
  | cons q rest ih =>
    obtain ⟨k', v'⟩ := q
    simp only [dictInsert] at h
    split at h
    next hk =>
      rcases List.mem_cons.mp h with h1 | h1
      · exact .inl h1
      · exact .inr (List.mem_cons_of_mem _ h1)
    next hk =>
      rcases List.mem_cons.mp h with h1 | h1
      · exact .inr (by simp [h1])
      · rcases ih h1 with h2 | h2
        · exact .inl h2
        · exact .inr (List.mem_cons_of_mem _ h2)

theorem x25519Exchange_comm (a b : Nat) :
    x25519Exchange a b = x25519Exchange b a := by
  simp [x25519Exchange, Nat.min_comm, Nat.max_comm]

theorem x25519Exchange_left_cancel {r r' e : Nat}
    (h : x25519Exchange r e = x25519Exchange r' e) : r = r' := by
  simp only [x25519Exchange, Prod.mk.injEq] at h
  have h1 : min r e + max r e = min r' e + max r' e := by rw [h.1, h.2]
  rw [min_add_max, min_add_max] at h1
  omega

/-- Round trip of the envelope construction: the matching private key
recovers exactly the wrapped payload. -/
theorem unwrap_wrap (r : PrivKey) (k : KeyVal) (e : PrivKey) (n : Nat) :
    unwrap_key_x25519 r (wrap_key_x25519 (x25519PublicKey r) k e n) = some k := by
  simp [unwrap_key_x25519, wrap_key_x25519, decrypt_aes_gcm, encrypt_aes_gcm,
    x25519PublicKey, x25519Exchange_comm e r]

/-- A non-matching private key makes the AEAD tag check fail
(`DecryptAuth`). -/
theorem unwrap_wrap_ne {r r' : PrivKey} (k : KeyVal) (e : PrivKey) (n : Nat)
    (h : r' ≠ r) :
    unwrap_key_x25519 r' (wrap_key_x25519 (x25519PublicKey r) k e n) = none := by
  simp only [unwrap_key_x25519, wrap_key_x25519, decrypt_aes_gcm,
    encrypt_aes_gcm, x25519PublicKey]
  rw [if_neg]
  · intro hk
    have h2 := (KeyVal.hkdfDH.injEq _ _ _ _).mp hk
    have h3 : x25519Exchange e r = x25519Exchange e r' := by
      rw [x25519Exchange_comm e r', ← h2.1]
    have h4 : x25519Exchange r e = x25519Exchange r' e := by
      rw [x25519Exchange_comm r e, h3, x25519Exchange_comm e r']
    exact h (x25519Exchange_left_cancel h4).symm

theorem findMissingField_none {tx : JsonFields} :
    ∀ {fs : List String}, findMissingField tx fs = none →
      ∀ f ∈ fs, (tx.get f).isSome
  | [], _, f, hf => by simp at hf
  | g :: gs, h, f, hf => by
    by_cases hg : (tx.get g).isSome
    · simp only [findMissingField, if_pos hg] at h
      rcases List.mem_cons.mp hf with rfl | hf'
      · exact hg
      · exact findMissingField_none h f hf'
    · simp [findMissingField, if_neg hg] at h

theorem findMissingField_some {tx : JsonFields} :
    ∀ {fs : List String} {f : String}, findMissingField tx fs = some f →
      f ∈ fs ∧ tx.get f = none
  | [], _, h => by simp [findMissingField] at h
  | g :: gs, f, h => by
    by_cases hg : (tx.get g).isSome
    · simp only [findMissingField, if_pos hg] at h
      have := findMissingField_some h
      exact ⟨List.mem_cons_of_mem _ this.1, this.2⟩
    · simp only [findMissingField, if_neg hg, Option.some.injEq] at h
      subst h
      exact ⟨List.mem_cons_self _ _, Option.not_isSome_iff_eq_none.mp hg⟩

theorem findMissingField_isSome {tx : JsonFields} :
    ∀ {fs : List String} {f : String}, f ∈ fs → tx.get f = none →
      (findMissingField tx fs).isSome
  | [], f, hf, _ => by simp at hf
  | g :: gs, f, hf, hn => by
    by_cases hg : (tx.get g).isSome
    · simp only [findMissingField, if_pos hg]
      rcases List.mem_cons.mp hf with rfl | hf'
      · rw [hn] at hg; simp at hg
      · exact findMissingField_isSome hf' hn
    · simp [findMissingField, if_neg hg]

theorem findMissingField_eq_none {tx : JsonFields} :
    ∀ {fs : List String}, (∀ f ∈ fs, (tx.get f).isSome) →
      findMissingField tx fs = none
  | [], _ => rfl
  | g :: gs, h => by
    have hg := h g (List.mem_cons_self _ _)
    simp only [findMissingField, hg, if_true]
    exact findMissingField_eq_none fun f hf => h f (List.mem_cons_of_mem _ hf)

/-- Invariant of the individual wrapped-keys dict: every envelope wraps the
data key `kT` under the public key the store advertises for that name. -/
def WrapsKT (store : PublicKeyStore) (kT : KeyVal)
    (l : List (String × WrappedKey)) : Prop :=
  ∀ p ∈ l, ∃ pk e n, store.get_encryption_public_key p.1 = some pk ∧
    p.2 = wrap_key_x25519 pk kT e n

theorem WrapsKT.insert {store : PublicKeyStore} {kT : KeyVal}
    {l : List (String × WrappedKey)} (hl : WrapsKT store kT l)
    {name : String} {pk : PubKey} {e n : Nat}
    (hpk : store.get_encryption_public_key name = some pk) :
    WrapsKT store kT (dictInsert name (wrap_key_x25519 pk kT e n) l) := by
  intro p hp
  rcases mem_dictInsert hp with h | h
  · subst h; exact ⟨pk, e, n, hpk, rfl⟩
  · exact hl p h

theorem wrapRecipients_wraps (store : PublicKeyStore) (kT : KeyVal) :
    ∀ (rs : List String) (c : Nat) (acc : List (String × WrappedKey)),
      WrapsKT store kT acc →
      WrapsKT store kT (wrapRecipients store kT c acc rs).2.1
  | [], c, acc, h => by simpa [wrapRecipients] using h
  | r :: rest, c, acc, h => by
    cases hp : store.get_encryption_public_key r with
    | some p =>
      simp only [wrapRecipients, hp]
      exact wrapRecipients_wraps store kT rest (c + 2) _ (h.insert hp)
    | none =>
      simp only [wrapRecipients, hp]
      exact wrapRecipients_wraps store kT rest c acc h

/-- Invariant of the group dict built by `protect`: every group present was
successfully fetched from the group server. -/
def GroupsFetched (srv : String → Option (List String))
    (l : List (String × GroupEntry)) : Prop :=
  ∀ p ∈ l, (srv p.1).isSome

theorem wrapGroups_fetched (store : PublicKeyStore)
    (srv : String → Option (List String)) (kT : KeyVal) (txId : String) :
    ∀ (gs : List String) (c : Nat) (acc : List (String × GroupEntry)),
      GroupsFetched srv acc →
      GroupsFetched srv (wrapGroups store srv kT txId c acc gs).2.1
  | [], c, acc, h => by simpa [wrapGroups] using h
  | gid :: rest, c, acc, h => by
    cases hg : srv gid with
    | none =>
      simp only [wrapGroups, hg]
      exact wrapGroups_fetched store srv kT txId rest c acc h
    | some members =>
      simp only [wrapGroups, hg]
      refine wrapGroups_fetched store srv kT txId rest _ _ ?_
      intro p hp
      rcases mem_dictInsert hp with h' | h'
      · subst h'; simp [hg]
      · exact h p h'

/-- Inversion of a successful `protect`: all validations passed and the
returned document has exactly the assembled shape of lines 127–147. -/
theorem protect_ok {tx : JsonFields} {seller buyer : String}
    {km : KeyManager} {store : PublicKeyStore}
    {recipients groups : List String}
    {srv : String → Option (List String)} {c0 : Nat} {d : ProtectedDoc}
    (h : (protect tx seller buyer km store recipients groups srv c0).1 = .ok d) :
    (∀ f ∈ requiredFields, (tx.get f).isSome) ∧
    (((tx.get "seller").getD .null).eqStr seller = true) ∧
    (((tx.get "buyer").getD .null).eqStr buyer = true) ∧
    ∃ sk, km.load_signing_private_key seller = some sk ∧
      (store.get_encryption_public_key seller).isSome ∧
      (store.get_encryption_public_key buyer).isSome ∧
      d.version = "1.0" ∧
      d.transaction_id = (tx.get "id").getD .null ∧
      d.transaction_hash = ⟨hash_data (jsonDumps (.obj tx))⟩ ∧
      d.signatures = Signatures.mk
        (some (SigEntry.mk seller
          ⟨sign_data sk (hash_data (jsonDumps (.obj tx)))⟩)) none ∧
      d.encrypted_transaction =
        encrypt_aes_gcm (KeyVal.fresh c0) (c0 + 1)
          (.txt (jsonDumps (.obj tx))) ∧
      WrapsKT store (KeyVal.fresh c0) d.wrapped_keys ∧
      GroupsFetched srv d.group_wrapped_keys := by
  unfold protect at h
  cases hm : findMissingField tx requiredFields with
  | some f => simp [hm] at h
  | none =>
    simp only [hm] at h
    cases hs : ((tx.get "seller").getD .null).eqStr seller with
    | false => simp [hs] at h
    | true =>
      cases hb : ((tx.get "buyer").getD .null).eqStr buyer with
      | false => simp [hs, hb] at h
      | true =>
        simp only [hs, hb, Bool.not_true, Bool.false_eq_true, if_false] at h
        cases hk : km.load_signing_private_key seller with
        | none => simp [hk] at h
        | some sk =>
          simp only [hk] at h
          cases hsp : store.get_encryption_public_key seller with
          | none => simp [hsp] at h
          | some sp =>
            simp only [hsp] at h
            cases hbp : store.get_encryption_public_key buyer with
            | none => simp [hbp] at h
            | some bp =>
              simp only [hbp, Except.ok.injEq] at h
              subst h
              refine ⟨findMissingField_none hm, rfl, rfl, sk, rfl,
                by simp, by simp, rfl, rfl, rfl, rfl, rfl, ?_, ?_⟩
              · refine wrapRecipients_wraps store _ recipients _ _ ?_
                refine WrapsKT.insert ?_ hbp
                intro p hp
                rcases List.mem_singleton.mp hp with rfl
                exact ⟨sp, c0 + 2, c0 + 3, hsp, rfl⟩
              · refine wrapGroups_fetched store srv _ _ groups _ _ ?_
                intro p hp
                simp at hp

/-- Skipping an unresolvable recipient consumes no randomness, adds no
envelope and prepends the stdout warning. -/
theorem wrapRecipients_cons_none (store : PublicKeyStore) (kT : KeyVal)
    (c : Nat) (acc : List (String × WrappedKey)) (X : String)
    (rest : List String) (hX : store.get_encryption_public_key X = none) :
    wrapRecipients store kT c acc (X :: rest) =
      ((wrapRecipients store kT c acc rest).1,
       (wrapRecipients store kT c acc rest).2.1,
       recipientWarning X :: (wrapRecipients store kT c acc rest).2.2) := by
  simp [wrapRecipients, hX]

/-- Skipping a group whose members cannot be fetched consumes no
randomness, adds no entry and prepends the stdout warning. -/
theorem wrapGroups_cons_none (store : PublicKeyStore)
    (srv : String → Option (List String)) (kT : KeyVal) (txId : String)
    (c : Nat) (acc : List (String × GroupEntry)) (g : String)
    (rest : List String) (hg : srv g = none) :
    wrapGroups store srv kT txId c acc (g :: rest) =
      ((wrapGroups store srv kT txId c acc rest).1,
       (wrapGroups store srv kT txId c acc rest).2.1,
       groupFetchWarning g ::
         (wrapGroups store srv kT txId c acc rest).2.2) := by
  simp [wrapGroups, hg]

/-- `protect` with an unresolvable extra recipient at the head of the list
returns the same result value as without it; on success the only trace of
the recipient is the stdout warning. -/
theorem protect_cons_unresolved_recipient (tx : JsonFields)
    (seller buyer X : String) (km : KeyManager) (store : PublicKeyStore)
    (rs gs : List String) (srv : String → Option (List String)) (c0 : Nat)
    (hX : store.get_encryption_public_key X = none) :
    (protect tx seller buyer km store (X :: rs) gs srv c0).1 =
      (protect tx seller buyer km store rs gs srv c0).1 ∧
    (∀ d, (protect tx seller buyer km store (X :: rs) gs srv c0).1 = .ok d →
       (protect tx seller buyer km store (X :: rs) gs srv c0).2 =
         recipientWarning X ::
           (protect tx seller buyer km store rs gs srv c0).2) := by
  unfold protect
  cases hm : findMissingField tx requiredFields with
  | some f => exact ⟨rfl, fun d hd => by simp at hd⟩
  | none =>
    cases hs : ((tx.get "seller").getD .null).eqStr seller with
    | false => exact ⟨rfl, fun d hd => by simp at hd⟩
    | true =>
      cases hb : ((tx.get "buyer").getD .null).eqStr buyer with
      | false => exact ⟨rfl, fun d hd => by simp at hd⟩
      | true =>
        cases hk : km.load_signing_private_key seller with
        | none => exact ⟨rfl, fun d hd => by simp at hd⟩
        | some sk =>
          cases hsp : store.get_encryption_public_key seller with
          | none => exact ⟨rfl, fun d hd => by simp at hd⟩
          | some sp =>
            cases hbp : store.get_encryption_public_key buyer with
            | none => exact ⟨rfl, fun d hd => by simp at hd⟩
            | some bp =>
              simp only [wrapRecipients_cons_none, hX]
              exact ⟨rfl, fun d _ => rfl⟩

/-- `protect` with an unfetchable group at the head of the group list
returns the same result value as without it; on success the only trace of
the group is the stdout warning. -/
theorem protect_cons_unknown_group (tx : JsonFields)
    (seller buyer g : String) (km : KeyManager) (store : PublicKeyStore)
    (rs gs : List String) (srv : String → Option (List String)) (c0 : Nat)
    (hg : srv g = none) :
    (protect tx seller buyer km store rs (g :: gs) srv c0).1 =
      (protect tx seller buyer km store rs gs srv c0).1 ∧
    (∀ d, (protect tx seller buyer km store rs (g :: gs) srv c0).1 = .ok d →
       groupFetchWarning g ∈
         (protect tx seller buyer km store rs (g :: gs) srv c0).2) := by
  unfold protect
  cases hm : findMissingField tx requiredFields with
  | some f => exact ⟨rfl, fun d hd => by simp at hd⟩
  | none =>
    cases hs : ((tx.get "seller").getD .null).eqStr seller with
    | false => exact ⟨rfl, fun d hd => by simp at hd⟩
    | true =>
      cases hb : ((tx.get "buyer").getD .null).eqStr buyer with
      | false => exact ⟨rfl, fun d hd => by simp at hd⟩
      | true =>
        cases hk : km.load_signing_private_key seller with
        | none => exact ⟨rfl, fun d hd => by simp at hd⟩
        | some sk =>
          cases hsp : store.get_encryption_public_key seller with
          | none => exact ⟨rfl, fun d hd => by simp at hd⟩
          | some sp =>
            cases hbp : store.get_encryption_public_key buyer with
            | none => exact ⟨rfl, fun d hd => by simp at hd⟩
            | some bp =>
              simp only [wrapGroups_cons_none, hg]
              exact ⟨rfl, fun d _ => by simp⟩

/-! ## Claim theorems -/

/-- **C5**: for every payload `k` and X25519 key pair `(r, P)` with
`P = x25519PublicKey r`, unwrapping with `r` the envelope produced by
wrapping `k` under `P` returns exactly `k`; unwrapping with any private key
`r'` that does not match the envelope's wrapped-for public key fails
authentication (`DecryptAuth`, i.e. `none`). -/
theorem C5_wrap_unwrap_contract :
    (∀ (r : PrivKey) (k : KeyVal) (e : PrivKey) (n : Nat),
       unwrap_key_x25519 r (wrap_key_x25519 (x25519PublicKey r) k e n) =
         some k) ∧
    (∀ (r r' : PrivKey) (k : KeyVal) (e : PrivKey) (n : Nat), r' ≠ r →
       unwrap_key_x25519 r' (wrap_key_x25519 (x25519PublicKey r) k e n) =
         none) :=
  ⟨unwrap_wrap, fun _ _ k e n h => unwrap_wrap_ne k e n h⟩

/-- Witness for C5 at concrete scalars: key pair 3, ephemeral 5, nonce 7,
payload `fresh 0`; the mismatched private key 4 fails. -/
theorem C5_wrap_unwrap_contract_witness :
    unwrap_key_x25519 3
        (wrap_key_x25519 (x25519PublicKey 3) (KeyVal.fresh 0) 5 7) =
      some (KeyVal.fresh 0) ∧
    unwrap_key_x25519 4
        (wrap_key_x25519 (x25519PublicKey 3) (KeyVal.fresh 0) 5 7) = none :=
  ⟨C5_wrap_unwrap_contract.1 3 (KeyVal.fresh 0) 5 7,
   C5_wrap_unwrap_contract.2 3 4 (KeyVal.fresh 0) 5 7 (by decide)⟩

/-- **C9**: `buyer_sign` sets only the `signatures.buyer` slot — to the
buyer's name and its signature over `transaction_hash` — and leaves every
other field unchanged.  The statement quantifies over all documents,
including those whose `signatures.buyer` is already set, which the function
silently overwrites. -/
theorem C9_buyer_sign_frame (doc : ProtectedDoc) (buyer : String)
    (km : KeyManager) (bk : SignPriv)
    (hbk : km.load_signing_private_key buyer = some bk) :
    ∃ d2, buyer_sign doc buyer km = .ok d2 ∧
      d2.version = doc.version ∧
      d2.transaction_id = doc.transaction_id ∧
      d2.encrypted_transaction = doc.encrypted_transaction ∧
      d2.transaction_hash = doc.transaction_hash ∧
      d2.signatures.seller = doc.signatures.seller ∧
      d2.wrapped_keys = doc.wrapped_keys ∧
      d2.group_wrapped_keys = doc.group_wrapped_keys ∧
      d2.signatures.buyer = some (SigEntry.mk buyer
        ⟨sign_data bk doc.transaction_hash.data⟩) := by
  refine ⟨ProtectedDoc.mk doc.version doc.transaction_id
    doc.encrypted_transaction
    (Signatures.mk doc.signatures.seller
      (some (SigEntry.mk buyer ⟨sign_data bk doc.transaction_hash.data⟩)))
    doc.wrapped_keys doc.group_wrapped_keys doc.transaction_hash,
    ?_, rfl, rfl, rfl, rfl, rfl, rfl, rfl, rfl⟩
  simp only [buyer_sign, hbk]

/-- Witness for C9: the buyer countersigns the scenario document (whose
buyer slot is empty) with its vault key 3. -/
theorem C9_buyer_sign_frame_witness :
    ∃ d2, buyer_sign scenDoc "B" scenKmB = .ok d2 ∧
      d2.version = scenDoc.version ∧
      d2.transaction_id = scenDoc.transaction_id ∧
      d2.encrypted_transaction = scenDoc.encrypted_transaction ∧
      d2.transaction_hash = scenDoc.transaction_hash ∧
      d2.signatures.seller = scenDoc.signatures.seller ∧
      d2.wrapped_keys = scenDoc.wrapped_keys ∧
      d2.group_wrapped_keys = scenDoc.group_wrapped_keys ∧
      d2.signatures.buyer = some (SigEntry.mk "B"
        ⟨sign_data 3 scenDoc.transaction_hash.data⟩) :=
  C9_buyer_sign_frame scenDoc "B" scenKmB 3 rfl

/-- **C10**: whenever `unprotect` succeeds its result carries
`verified = true`, and `unprotect` never consults `signatures` at all —
the result on a document with stripped or replaced signatures is
identical, so successful AEAD decryption is the only integrity evidence. -/
theorem C10_verified_unconditional :
    (∀ (doc : ProtectedDoc) (company : String) (km : KeyManager)
       (res : UnprotectResult),
       unprotect doc company km = .ok res → res.verified = true) ∧
    (∀ (doc : ProtectedDoc) (sigs : Signatures) (company : String)
       (km : KeyManager),
       unprotect { doc with signatures := sigs } company km =
         unprotect doc company km) := by
  constructor
  · intro doc company km res h
    unfold unprotect at h
    repeat' split at h
    all_goals cases h
    all_goals rfl
  · intro doc sigs company km
    rfl

/-- Witness for C10: the seller's successful unprotect of the scenario
document yields `verified = true`. -/
theorem C10_verified_unconditional_witness :
    (UnprotectResult.mk (jsonDumps (.obj scenTx)) "individual"
      true).verified = true :=
  C10_verified_unconditional.1 scenDoc "S" scenKmS _ rfl

/-- **C7**: `check` is total (it returns a report for every typed document
— every exception path of the Python code is caught inside its
`try`/`except`); a version other than `"1.0"` contributes a warning but
never affects `valid` or `errors`; an absent buyer signature yields
detail `"missing"` with a warning; and a single-signed document can still
be fully valid (shown on the scenario document with version `"2.0"`). -/
theorem C7_check_never_fails :
    (∀ (doc : ProtectedDoc) (store : PublicKeyStore) (v : String),
       (check { doc with version := v } store).valid =
         (check doc store).valid ∧
       (check { doc with version := v } store).errors =
         (check doc store).errors) ∧
    (∀ (doc : ProtectedDoc) (store : PublicKeyStore), doc.version ≠ "1.0" →
       ("Unknown version: " ++ doc.version) ∈ (check doc store).warnings) ∧
    (∀ (doc : ProtectedDoc) (store : PublicKeyStore),
       doc.signatures.buyer = none →
       (check doc store).details_buyer_signature = some "missing" ∧
       "Buyer signature not yet added" ∈ (check doc store).warnings) ∧
    ((check { scenDoc with version := "2.0" } scenStore).valid = true ∧
     (check { scenDoc with version := "2.0" }
        scenStore).details_buyer_signature = some "missing" ∧
     ("Unknown version: " ++ "2.0") ∈
       (check { scenDoc with version := "2.0" } scenStore).warnings) := by
  refine ⟨fun doc store v => ⟨rfl, rfl⟩, ?_, ?_, by decide, by decide,
    by decide⟩
  · intro doc store h
    simp [check, if_neg h]
  · intro doc store h
    constructor
    · simp [check, h, checkBuyerSig]
    · simp [check, h, checkBuyerSig]

/-- Witness for C7's hypothesised conjuncts, instantiated on the scenario
document (version warning on a `"2.0"` copy; missing-buyer behaviour on
the document as issued). -/
theorem C7_check_never_fails_witness :
    ("Unknown version: " ++ ProtectedDoc.version
        { scenDoc with version := "2.0" }) ∈
      (check { scenDoc with version := "2.0" } scenStore).warnings ∧
    ((check scenDoc scenStore).details_buyer_signature = some "missing" ∧
     "Buyer signature not yet added" ∈ (check scenDoc scenStore).warnings) :=
  ⟨C7_check_never_fails.2.1 { scenDoc with version := "2.0" } scenStore
     (by decide),
   C7_check_never_fails.2.2.1 scenDoc scenStore rfl⟩

/-- **C6**: `protect` fails with `MissingField` (reporting a required field
absent from the plaintext) when any required field is missing, with
`sellerMismatch` when the plaintext `seller` differs from the `seller`
argument, and with `buyerMismatch` when the plaintext `buyer` differs from
the `buyer` argument; in each case the whole return value is the error and
the empty stdout — no document is produced (atomicity). -/
theorem C6_protect_preconditions :
    (∀ (tx : JsonFields) (seller buyer : String)
       (km : KeyManager) (store : PublicKeyStore) (rs gs : List String)
       (srv : String → Option (List String)) (c0 : Nat) (f : String),
       f ∈ requiredFields → tx.get f = none →
       ∃ g, g ∈ requiredFields ∧ tx.get g = none ∧
         protect tx seller buyer km store rs gs srv c0 =
           (.error (.missingField g), [])) ∧
    (∀ (tx : JsonFields) (seller buyer : String)
       (km : KeyManager) (store : PublicKeyStore) (rs gs : List String)
       (srv : String → Option (List String)) (c0 : Nat),
       (∀ f ∈ requiredFields, (tx.get f).isSome) →
       ((tx.get "seller").getD .null).eqStr seller = false →
       protect tx seller buyer km store rs gs srv c0 =
         (.error .sellerMismatch, [])) ∧
    (∀ (tx : JsonFields) (seller buyer : String)
       (km : KeyManager) (store : PublicKeyStore) (rs gs : List String)
       (srv : String → Option (List String)) (c0 : Nat),
       (∀ f ∈ requiredFields, (tx.get f).isSome) →
       ((tx.get "seller").getD .null).eqStr seller = true →
       ((tx.get "buyer").getD .null).eqStr buyer = false →
       protect tx seller buyer km store rs gs srv c0 =
         (.error .buyerMismatch, [])) := by
  refine ⟨?_, ?_, ?_⟩
  · intro tx seller buyer km store rs gs srv c0 f hf hn
    obtain ⟨g, hg⟩ := Option.isSome_iff_exists.mp (findMissingField_isSome hf hn)
    obtain ⟨hg1, hg2⟩ := findMissingField_some hg
    exact ⟨g, hg1, hg2, by simp [protect, hg]⟩
  · intro tx seller buyer km store rs gs srv c0 hall hs
    simp [protect, findMissingField_eq_none hall, hs]
  · intro tx seller buyer km store rs gs srv c0 hall hs hb
    simp [protect, findMissingField_eq_none hall, hs, hb]

/-- Witness for C6: the scenario transaction without `"amount"` trips
`MissingField`; wrong seller / buyer arguments trip the mismatch errors. -/
theorem C6_protect_preconditions_witness :
    (∃ g, g ∈ requiredFields ∧
       scenTxNoAmount.get g = none ∧
       protect (scenTxNoAmount) "S" "B" scenKmS scenStore [] [] scenServer 100 =
         (.error (.missingField g), [])) ∧
    protect scenTx "Z" "B" scenKmS scenStore [] [] scenServer 100 =
      (.error .sellerMismatch, []) ∧
    protect scenTx "S" "Z" scenKmS scenStore [] [] scenServer 100 =
      (.error .buyerMismatch, []) :=
  ⟨C6_protect_preconditions.1 (scenTxNoAmount) "S" "B" scenKmS scenStore [] []
     scenServer 100 "amount" (by decide) rfl,
   C6_protect_preconditions.2.1 scenTx "Z" "B" scenKmS scenStore [] []
     scenServer 100 (by decide) rfl,
   C6_protect_preconditions.2.2 scenTx "S" "Z" scenKmS scenStore [] []
     scenServer 100 (by decide) rfl rfl⟩

/-- **C3**: on a freshly protected document `check` reports the seller
signature `"valid"` (and the buyer `"missing"`); after `buyer_sign`,
`check` reports both signatures `"valid"`.  The hypotheses tie the vault
keys used for signing to the signing public keys the store advertises for
the same companies, which is how the deployment registers keys. -/
theorem C3_signature_validity (tx : JsonFields) (seller buyer : String)
    (km km2 : KeyManager) (store : PublicKeyStore) (rs gs : List String)
    (srv : String → Option (List String)) (c0 : Nat) (d d2 : ProtectedDoc)
    (sk bk : SignPriv)
    (hok : (protect tx seller buyer km store rs gs srv c0).1 = .ok d)
    (hsk : km.load_signing_private_key seller = some sk)
    (hsp : store.get_signing_public_key seller = some (ed25519PublicKey sk))
    (hbk : km2.load_signing_private_key buyer = some bk)
    (hbp : store.get_signing_public_key buyer = some (ed25519PublicKey bk))
    (hb2 : buyer_sign d buyer km2 = .ok d2) :
    (check d store).details_seller_signature = some "valid" ∧
    (check d store).details_buyer_signature = some "missing" ∧
    (check d2 store).details_seller_signature = some "valid" ∧
    (check d2 store).details_buyer_signature = some "valid" := by
  obtain ⟨-, -, -, sk', hsk', -, -, -, -, hhash, hsigs, -, -, -⟩ :=
    protect_ok hok
  rw [hsk] at hsk'
  injection hsk' with hsk'
  subst hsk'
  simp only [buyer_sign, hbk] at hb2
  injection hb2 with hb2
  subst hb2
  refine ⟨?_, ?_, ?_, ?_⟩
  · simp [check, hsigs, hhash, checkSellerSig, hsp, verify_signature,
      sign_data, ed25519PublicKey]
  · simp [check, hsigs, checkBuyerSig]
  · simp [check, hsigs, hhash, checkSellerSig, hsp, verify_signature,
      sign_data, ed25519PublicKey]
  · simp [check, hsigs, hhash, checkBuyerSig, hbp, verify_signature,
      sign_data, ed25519PublicKey]

/-- The scenario document countersigned by the buyer. -/
def scenDocSigned : ProtectedDoc :=
  match buyer_sign scenDoc "B" scenKmB with
  | .ok d => d
  | .error _ => emptyDoc

/-- Witness for C3 on the scenario: seller valid and buyer missing before
the countersign, both valid after. -/
theorem C3_signature_validity_witness :
    (check scenDoc scenStore).details_seller_signature = some "valid" ∧
    (check scenDoc scenStore).details_buyer_signature = some "missing" ∧
    (check scenDocSigned scenStore).details_seller_signature =
      some "valid" ∧
    (check scenDocSigned scenStore).details_buyer_signature =
      some "valid" :=
  C3_signature_validity scenTx "S" "B" scenKmS scenKmB scenStore [] ["g"]
    scenServer 100 scenDoc scenDocSigned 1 3 rfl rfl rfl rfl rfl rfl

/-- **C4 counterexample**: on the concrete S1 transaction, the hash the
code computes is SHA-256 of `json.dumps(tx, sort_keys=True)` — whose
default separators insert a space after each `:` and `,` — and differs
from SHA-256 of the spec's canonical JSON with no insignificant
whitespace. -/
theorem C4_counterexample :
    scenProtect.1 = .ok scenDoc ∧
    scenDoc.transaction_hash.data =
      hash_data (jsonDumps (.obj scenTx)) ∧
    scenDoc.transaction_hash.data ≠
      hash_data (specCanonicalDumps (.obj scenTx)) :=
  ⟨rfl, rfl, by decide⟩

/-- **C4 (amended)**: `protect(T).transaction_hash` is SHA-256 of the
sorted-key UTF-8 JSON serialization of `T` with Python's default
separators `", "` and `": "` (a space after each colon and comma), and
`transaction_id` equals the plaintext's `id` field. -/
theorem C4_hash_and_id (tx : JsonFields) (seller buyer : String)
    (km : KeyManager) (store : PublicKeyStore) (rs gs : List String)
    (srv : String → Option (List String)) (c0 : Nat) (d : ProtectedDoc)
    (hok : (protect tx seller buyer km store rs gs srv c0).1 = .ok d) :
    d.transaction_hash = ⟨hash_data (jsonDumps (.obj tx))⟩ ∧
    (tx.get "id").isSome ∧
    d.transaction_id = (tx.get "id").getD .null := by
  obtain ⟨hfields, -, -, -, -, -, -, -, hid, hhash, -, -, -, -⟩ :=
    protect_ok hok
  exact ⟨hhash, hfields "id" (by decide), hid⟩

/-- Witness for C4 on the scenario document. -/
theorem C4_hash_and_id_witness :
    scenDoc.transaction_hash = ⟨hash_data (jsonDumps (.obj scenTx))⟩ ∧
    (scenTx.get "id").isSome ∧
    scenDoc.transaction_id = (scenTx.get "id").getD .null :=
  C4_hash_and_id scenTx "S" "B" scenKmS scenStore [] ["g"] scenServer 100
    scenDoc rfl

/-- **C1 counterexample**: in the scenario document the company `"M"`
holds an envelope (in the `"g"` entry of `group_wrapped_keys`), yet
`unprotect` for `"M"` does not return the plaintext: it raises the
"Group-based decryption not fully implemented" `ProtectionError` of
`library.py` lines 321–325. -/
theorem C1_counterexample :
    scenProtect.1 = .ok scenDoc ∧
    (dictGet "M"
      (((dictGet "g" scenDoc.group_wrapped_keys).getD ⟨[]⟩).members)).isSome ∧
    unprotect scenDoc "M" scenKmM = .error (.groupNotImplemented "g") :=
  ⟨rfl, rfl, rfl⟩

/-- **C1 (amended)**: for every valid plaintext `T` and every company `R`
that holds an *individual* envelope in `wrapped_keys` of `protect(T)`
(which always includes the seller and the buyer), `unprotect` with `R`'s
matching encryption private key returns exactly the canonical plaintext
bytes, with access method `"individual"`.  (Holders of group envelopes are
excluded: the source's group path dead-ends, see the counterexample.) -/
theorem C1_roundtrip_individual (tx : JsonFields) (seller buyer R : String)
    (km kmR : KeyManager) (store : PublicKeyStore) (rs gs : List String)
    (srv : String → Option (List String)) (c0 : Nat) (d : ProtectedDoc)
    (w : WrappedKey) (r : PrivKey)
    (hok : (protect tx seller buyer km store rs gs srv c0).1 = .ok d)
    (hw : dictGet R d.wrapped_keys = some w)
    (hr : kmR.load_encryption_private_key R = some r)
    (hpub : store.get_encryption_public_key R = some (x25519PublicKey r)) :
    unprotect d R kmR =
      .ok { transaction := jsonDumps (.obj tx),
            access_method := "individual", verified := true } := by
  obtain ⟨-, -, -, -, -, -, -, -, -, -, -, henc, hwraps, -⟩ := protect_ok hok
  obtain ⟨pk, e, n, hpk, hwkey⟩ := hwraps (R, w) (dictGet_mem hw)
  rw [hpub] at hpk
  injection hpk with hpk
  subst hpk
  subst hwkey
  simp [unprotect, hw, hr, unwrap_wrap, henc, decrypt_aes_gcm,
    encrypt_aes_gcm]

/-- Witness for C1 on the scenario: the buyer `"B"` recovers the canonical
plaintext through its individual envelope. -/
theorem C1_roundtrip_individual_witness :
    unprotect scenDoc "B" scenKmB =
      .ok { transaction := jsonDumps (.obj scenTx),
            access_method := "individual", verified := true } :=
  C1_roundtrip_individual scenTx "S" "B" "B" scenKmS scenKmB scenStore []
    ["g"] scenServer 100 scenDoc
    (wrap_key_x25519 4 (KeyVal.fresh 100) 104 105) 4 rfl rfl rfl rfl

/-- **C2**: on the scenario document — at the failing input
`unprotect(scenDoc, "M")` where `"M"` is a member of group `"g"` and holds
no individual envelope — the source does *not* succeed via the mandated
`K_G`-to-`K_T` bridge (no such bridge is ever stored): it raises the
`ProtectionError` of lines 321–325.  A company in no envelope set does get
`NoAccess` as claimed. -/
theorem C2_group_access_dead_end :
    scenProtect.1 = .ok scenDoc ∧
    dictGet "M" scenDoc.wrapped_keys = none ∧
    (dictGet "M"
      (((dictGet "g" scenDoc.group_wrapped_keys).getD ⟨[]⟩).members)).isSome ∧
    unprotect scenDoc "M" scenKmM = .error (.groupNotImplemented "g") ∧
    unprotect scenDoc "X" scenKmM = .error (.noAccess "X") :=
  ⟨rfl, rfl, rfl, rfl, rfl⟩

/-- **C8 counterexample**: requesting the unresolvable recipient `"X"`
changes nothing in the value `protect` returns — the result is literally
the same as when `"X"` is not requested — while the warning appears only
on the stdout side channel.  So the warning is *not* recorded in the value
returned to the caller. -/
theorem C8_counterexample :
    (protect scenTx "S" "B" scenKmS scenStore ["X"] [] scenServer 100).1 =
      (protect scenTx "S" "B" scenKmS scenStore [] [] scenServer 100).1 ∧
    (protect scenTx "S" "B" scenKmS scenStore ["X"] [] scenServer 100).2 =
      [recipientWarning "X"] ∧
    (protect scenTx "S" "B" scenKmS scenStore [] [] scenServer 100).2 = [] :=
  ⟨rfl, rfl, rfl⟩

/-- **C8 (amended)**: when `protect` is called with an optional recipient
whose public key cannot be resolved, or with an unknown group, the call
still returns a successful document without that recipient's (or group's)
envelope — the same value as if it had not been requested — and the
corresponding warning is printed to stdout, not recorded in the returned
value. -/
theorem C8_optional_failures_warn_on_stdout :
    (∀ (tx : JsonFields) (seller buyer X : String) (km : KeyManager)
       (store : PublicKeyStore) (rs gs : List String)
       (srv : String → Option (List String)) (c0 : Nat),
       store.get_encryption_public_key X = none →
       (protect tx seller buyer km store (X :: rs) gs srv c0).1 =
         (protect tx seller buyer km store rs gs srv c0).1 ∧
       (∀ d, (protect tx seller buyer km store (X :: rs) gs srv c0).1 =
           .ok d →
         dictGet X d.wrapped_keys = none ∧
         (protect tx seller buyer km store (X :: rs) gs srv c0).2 =
           recipientWarning X ::
             (protect tx seller buyer km store rs gs srv c0).2)) ∧
    (∀ (tx : JsonFields) (seller buyer g : String) (km : KeyManager)
       (store : PublicKeyStore) (rs gs : List String)
       (srv : String → Option (List String)) (c0 : Nat),
       srv g = none →
       (protect tx seller buyer km store rs (g :: gs) srv c0).1 =
         (protect tx seller buyer km store rs gs srv c0).1 ∧
       (∀ d, (protect tx seller buyer km store rs (g :: gs) srv c0).1 =
           .ok d →
         dictGet g d.group_wrapped_keys = none ∧
         groupFetchWarning g ∈
           (protect tx seller buyer km store rs (g :: gs) srv c0).2)) := by
  constructor
  · intro tx seller buyer X km store rs gs srv c0 hX
    obtain ⟨h1, h2⟩ := protect_cons_unresolved_recipient tx seller buyer X
      km store rs gs srv c0 hX
    refine ⟨h1, fun d hd => ⟨?_, ?_⟩⟩
    · obtain ⟨-, -, -, -, -, -, -, -, -, -, -, -, hwraps, -⟩ :=
        protect_ok hd
      cases hxw : dictGet X d.wrapped_keys with
      | none => rfl
      | some w =>
        obtain ⟨pk, e, n, hpk, -⟩ := hwraps (X, w) (dictGet_mem hxw)
        rw [hX] at hpk
        exact absurd hpk (by simp)
    · exact h2 d hd
  · intro tx seller buyer g km store rs gs srv c0 hg
    obtain ⟨h1, h2⟩ := protect_cons_unknown_group tx seller buyer g
      km store rs gs srv c0 hg
    refine ⟨h1, fun d hd => ⟨?_, h2 d hd⟩⟩
    obtain ⟨-, -, -, -, -, -, -, -, -, -, -, -, -, hfetch⟩ :=
      protect_ok hd
    cases hgw : dictGet g d.group_wrapped_keys with
    | none => rfl
    | some ge =>
      have := hfetch (g, ge) (dictGet_mem hgw)
      rw [hg] at this
      exact absurd this (by simp)

/-- Witness for C8: recipient `"X"` has no key in the store and group
`"u"` is unknown to the group server; in both cases the scenario call
still yields the very document `scenDoc` and only stdout carries the
warning. -/
theorem C8_optional_failures_witness :
    ((protect scenTx "S" "B" scenKmS scenStore ["X"] ["g"] scenServer
        100).1 =
      (protect scenTx "S" "B" scenKmS scenStore [] ["g"] scenServer
        100).1 ∧
     (dictGet "X" scenDoc.wrapped_keys = none ∧
      (protect scenTx "S" "B" scenKmS scenStore ["X"] ["g"] scenServer
          100).2 =
        recipientWarning "X" ::
          (protect scenTx "S" "B" scenKmS scenStore [] ["g"] scenServer
            100).2)) ∧
    ((protect scenTx "S" "B" scenKmS scenStore [] ["u", "g"] scenServer
        100).1 =
      (protect scenTx "S" "B" scenKmS scenStore [] ["g"] scenServer
        100).1 ∧
     (dictGet "u" scenDoc.group_wrapped_keys = none ∧
      groupFetchWarning "u" ∈
        (protect scenTx "S" "B" scenKmS scenStore [] ["u", "g"] scenServer
          100).2)) :=
  ⟨⟨(C8_optional_failures_warn_on_stdout.1 scenTx "S" "B" "X" scenKmS
       scenStore [] ["g"] scenServer 100 rfl).1,
    (C8_optional_failures_warn_on_stdout.1 scenTx "S" "B" "X" scenKmS
       scenStore [] ["g"] scenServer 100 rfl).2 scenDoc rfl⟩,
   ⟨(C8_optional_failures_warn_on_stdout.2 scenTx "S" "B" "u" scenKmS
       scenStore [] ["g"] scenServer 100 rfl).1,
    (C8_optional_failures_warn_on_stdout.2 scenTx "S" "B" "u" scenKmS
       scenStore [] ["g"] scenServer 100 rfl).2 scenDoc rfl⟩⟩

end ChainOfProducts
